import Mathlib

/-!
# Verification of the PR-analysis relevance-scoring core

Shallow embedding of the scoring/matching logic of the repository:

* `backend/services/bitbucket-service.js` — `analyzePR` (Change Classifier);
* `backend/services/testrail-service.js` — `extractSignificantKeywords`
  (Keyword Extractor), the component-resolution step and staged pipeline of
  `getImpactedTestCases` (Component Matcher + Impact Selector), and
  `scoreRegressionTestsForRelevance` with its helpers (Relevance Scorer).

JavaScript strings are modelled as Lean `String` (a wrapped `List Char`);
`toLowerCase` is modelled on the basic-latin range (`Char.toLower`), which is
the only range exercised by the ASCII identifiers and titles this code
matches on.  JavaScript numbers are modelled as `Nat`/`Int` for counts and as
`ℚ` for the one fractional computation (`totalLines * 0.05`); for integer
inputs the IEEE-754 double computation `n * 0.05` agrees with the rational
`n / 20` at every comparison and rounding boundary the code performs (the
product is exactly representable whenever the rational lands on a comparison
or half-way point, and is many orders of magnitude closer than the boundary
gap otherwise), so the rational model is exact for this program.

The HTTP fetching and pagination that precede the pure logic (and the
`console.log` calls interleaved with it) are I/O and are not modelled; every
function below receives the already-fetched, already-enriched data the
source computes before its pure part begins.
-/

/- ================================================================
   JS string primitives
   ================================================================ -/

/-- `l₁` occurs as a contiguous leading block of `l₂`.  Helper for
`hasSubList`. -/
def leadsList : List Char → List Char → Bool
  | [], _ => true
  | _ :: _, [] => false
  | a :: as, b :: bs => a == b && leadsList as bs

/-- `needle` occurs contiguously somewhere in `hay`; the empty needle always
occurs.  This is JS `String.prototype.includes` at the character-list
level. -/
def hasSubList (needle : List Char) : List Char → Bool
  | [] => leadsList needle []
  | c :: t => leadsList needle (c :: t) || hasSubList needle t

/-- JS `a.includes(b)`. -/
def jsIncludes (s sub : String) : Bool := hasSubList sub.data s.data

/-- JS `a.endsWith(b)`. -/
def jsEndsWith (s suf : String) : Bool := leadsList suf.data.reverse s.data.reverse

/-- JS `a.startsWith(b)`. -/
def jsStartsWith (s pre : String) : Bool := leadsList pre.data s.data

/-- JS `toLowerCase` (basic-latin range, the range this code matches on). -/
def toLowerStr (s : String) : String := ⟨s.data.map Char.toLower⟩

/-- Character class of JS `\s` (the ASCII members: space, tab, LF, CR, FF,
VT). -/
def isJsSpace (c : Char) : Bool :=
  c.toNat = 32 || c.toNat = 9 || c.toNat = 10 || c.toNat = 13 ||
  c.toNat = 12 || c.toNat = 11

/-- JS `String.prototype.trim` (both ends, `\s` class). -/
def jsTrim (s : String) : String :=
  ⟨((s.data.dropWhile isJsSpace).reverse.dropWhile isJsSpace).reverse⟩

/-- JS `s.split(re)` for a single-character class without `+`: every
delimiter occurrence cuts, adjacent delimiters produce empty pieces, and the
result always has one more piece than there are delimiters. -/
def splitCharList (d : Char → Bool) (acc : List Char) : List Char → List (List Char)
  | [] => [acc.reverse]
  | c :: cs => if d c then acc.reverse :: splitCharList d [] cs
               else splitCharList d (c :: acc) cs

/-- JS `s.split(re)` for a single-character class with `+`: a run of
delimiters cuts once (runs collapse), but a leading or trailing run still
produces an empty piece, exactly as the JS regex split does.  `inDelim`
records whether the scan is inside a delimiter run (whose first character
already cut). -/
def splitRunGo (d : Char → Bool) (inDelim : Bool) (acc : List Char) :
    List Char → List (List Char)
  | [] => [acc.reverse]
  | c :: cs =>
    if d c then
      if inDelim then splitRunGo d true acc cs
      else acc.reverse :: splitRunGo d true [] cs
    else splitRunGo d false (c :: acc) cs

/-- Entry point of `splitRunGo` (scan starts outside any delimiter run). -/
def splitRunList (d : Char → Bool) (acc : List Char) (l : List Char) :
    List (List Char) :=
  splitRunGo d false acc l

/-- String wrapper for `splitCharList`. -/
def jsSplitChar (s : String) (d : Char → Bool) : List String :=
  (splitCharList d [] s.data).map (fun cs => (⟨cs⟩ : String))

/-- String wrapper for `splitRunList`. -/
def jsSplitRun (s : String) (d : Char → Bool) : List String :=
  (splitRunList d [] s.data).map (fun cs => (⟨cs⟩ : String))

/-- JS `[...new Set(xs)]` against a running `seen` accumulator:
deduplication keeping the first occurrence of each element, in order. -/
def jsDedupGo (seen : List String) : List String → List String
  | [] => []
  | x :: xs =>
    if x ∈ seen then jsDedupGo seen xs else x :: jsDedupGo (x :: seen) xs

/-- JS `[...new Set(xs)]`. -/
def jsDedup (l : List String) : List String := jsDedupGo [] l

/-- JS `path.replace(/\.[^/.]+$/, '')`: strip a final `.ext` whose `ext` is
non-empty and contains neither `.` nor `/`. -/
def stripExt (s : String) : String :=
  let rev := s.data.reverse
  let keep := fun c => !(c = '.' || c = '/')
  match rev.dropWhile keep with
  | '.' :: more => if rev.takeWhile keep = [] then s else ⟨more.reverse⟩
  | _ => s

/-- JS `s.split(d).pop()`: the final piece of a character split (a split is
never empty, so `pop` always yields a piece). -/
def lastSeg (s : String) (d : Char → Bool) : String :=
  (jsSplitChar s d).getLastD ""

/- ================================================================
   Change Classifier — bitbucket-service.js, analyzePR
   ================================================================ -/

/-- A changed-file entry after the `getPath` / `linesAdded ||
lines_added || 0` adapter normalisation the source applies up front (the
adapter fallback chain is shape plumbing, not scoring logic). -/
structure BBFile where
  path : String
  linesAdded : Nat
  linesRemoved : Nat
deriving Repr, DecidableEq

/-- The parts of the analysis object `analyzePR` returns that carry logic:
`category`, `riskScore` (rounded), `riskLevel` and the metrics.  The
display-only `emoji` string is omitted. -/
structure PRAnalysisResult where
  category : String
  riskScore : Int
  riskLevel : String
  filesChanged : Nat
  linesChanged : Nat
  sharedComponents : Nat
  onlyStyleChanges : Bool
deriving Repr, DecidableEq

/-- JS `Math.round` (round half toward positive infinity). -/
def jsRound (q : ℚ) : Int := ⌊q + 1 / 2⌋

/-- `files.reduce((sum, f) => sum + linesAdded + linesRemoved, 0)`. -/
def totalLinesOf (files : List BBFile) : Nat :=
  files.foldl (fun sum f => sum + f.linesAdded + f.linesRemoved) 0

/-- The count of changed files whose path contains `shared`, `core`,
`common` or `utils`. -/
def sharedComponentsOf (files : List BBFile) : Nat :=
  (files.filter (fun f =>
    jsIncludes f.path "shared" || jsIncludes f.path "core" ||
    jsIncludes f.path "common" || jsIncludes f.path "utils")).length

/-- `Math.min(100, totalFiles*1 + sharedComponents*10 + totalLines*0.05)`,
the raw (un-rounded) risk value. -/
def riskScoreRaw (files : List BBFile) : ℚ :=
  min 100 ((files.length : ℚ) * 1 + (sharedComponentsOf files : ℚ) * 10 +
    (totalLinesOf files : ℚ) * (0.05 : ℚ))

/-- `analyzePR(pr, files)` from bitbucket-service.js: classifies the PR into
one of five categories and computes the risk score and level. -/
def analyzePR (title : String) (files : List BBFile) : PRAnalysisResult :=
  let totalFiles := files.length
  let totalLines := totalLinesOf files
  let sharedComponents := sharedComponentsOf files
  let onlyStyleChanges := files.all (fun f =>
    jsEndsWith f.path ".css" || jsEndsWith f.path ".scss" ||
    jsEndsWith f.path ".less" || jsIncludes f.path "style")
  let titleL := toLowerStr title
  let isSarcastic :=
    (jsIncludes titleL "minor" || jsIncludes titleL "quick" ||
     jsIncludes titleL "small" || jsIncludes titleL "fix") &&
    (decide (totalFiles > 5) || decide (totalLines > 100))
  let riskScore := riskScoreRaw files
  let category :=
    if onlyStyleChanges then "Sleepy PR"
    else if isSarcastic then "Sarcastic PR"
    else if sharedComponents > 3 ∨ riskScore > 85 then "Overloaded PR"
    else if totalFiles > 10 ∨ totalLines > 500 then "Angry PR"
    else "Relaxed PR"
  let riskLevel :=
    if riskScore < 30 then "Low"
    else if riskScore < 70 then "Medium"
    else "High"
  { category := category
    riskScore := jsRound riskScore
    riskLevel := riskLevel
    filesChanged := totalFiles
    linesChanged := totalLines
    sharedComponents := sharedComponents
    onlyStyleChanges := onlyStyleChanges }

/-- The category decision exactly as the claim and §4.5 of the spec word
it: the same precedence, with `riskScore` in the Overloaded test denoting
the value §4.5 defines — `round(min(100, …))`, the *rounded* risk score. -/
def specCategoryDecision (title : String) (files : List BBFile) : String :=
  if files.all (fun f =>
      jsEndsWith f.path ".css" || jsEndsWith f.path ".scss" ||
      jsEndsWith f.path ".less" || jsIncludes f.path "style") then "Sleepy PR"
  else if (jsIncludes (toLowerStr title) "minor" ||
           jsIncludes (toLowerStr title) "quick" ||
           jsIncludes (toLowerStr title) "small" ||
           jsIncludes (toLowerStr title) "fix") &&
          (decide (files.length > 5) || decide (totalLinesOf files > 100)) then
    "Sarcastic PR"
  else if sharedComponentsOf files > 3 ∨ jsRound (riskScoreRaw files) > 85 then
    "Overloaded PR"
  else if files.length > 10 ∨ totalLinesOf files > 500 then "Angry PR"
  else "Relaxed PR"

/-- The amended category decision: identical precedence, but the Overloaded
test compares the raw (pre-rounding) min value against 85, which is what
the source's `riskScore > 85` at bitbucket-service.js:291 does (`riskScore`
there is still the un-rounded local; rounding happens only in the returned
object). -/
def specCategoryDecisionUnrounded (title : String) (files : List BBFile) : String :=
  if files.all (fun f =>
      jsEndsWith f.path ".css" || jsEndsWith f.path ".scss" ||
      jsEndsWith f.path ".less" || jsIncludes f.path "style") then "Sleepy PR"
  else if (jsIncludes (toLowerStr title) "minor" ||
           jsIncludes (toLowerStr title) "quick" ||
           jsIncludes (toLowerStr title) "small" ||
           jsIncludes (toLowerStr title) "fix") &&
          (decide (files.length > 5) || decide (totalLinesOf files > 100)) then
    "Sarcastic PR"
  else if sharedComponentsOf files > 3 ∨ riskScoreRaw files > 85 then "Overloaded PR"
  else if files.length > 10 ∨ totalLinesOf files > 500 then "Angry PR"
  else "Relaxed PR"

/- ================================================================
   Keyword Extractor — testrail-service.js, extractSignificantKeywords
   ================================================================ -/

/-- Character class of the split regex `[\s,.-]` in
`extractSignificantKeywords` (codes: space class plus `,` `.` `-`). -/
def isKwDelim (c : Char) : Bool :=
  isJsSpace c || c.toNat = 44 || c.toNat = 46 || c.toNat = 45

/-- Character class of `[a-z0-9]`. -/
def isKeywordChar (c : Char) : Bool :=
  (97 ≤ c.toNat && c.toNat ≤ 122) || (48 ≤ c.toNat && c.toNat ≤ 57)

/-- The stop-word set of `extractSignificantKeywords`. -/
def stopWords : List String :=
  ["the", "and", "for", "are", "but", "not", "you", "all", "can", "has", "was", "were",
   "been", "have", "this", "that", "with", "from", "they", "will", "would", "there",
   "their", "what", "which", "when", "where", "should", "could", "make", "made",
   "able", "about", "into", "than", "them", "these", "those", "does", "done"]

/-- The word filter of `extractSignificantKeywords`:
`word.length >= 4 && /^[a-z0-9]+$/.test(word) && !stopWords.has(word)`. -/
def isSignificantWord (w : String) : Bool :=
  decide (4 ≤ w.length) && (!w.data.isEmpty && w.data.all isKeywordChar) &&
  !(stopWords.contains w)

/-- `extractSignificantKeywords(text)` from testrail-service.js: lowercase,
split on `[\s,.-]+`, keep alphanumeric non-stop words of length ≥ 4,
deduplicate keeping first occurrences. -/
def extractSignificantKeywords (text : String) : List String :=
  if text = "" then []
  else jsDedup ((jsSplitRun (toLowerStr text) isKwDelim).filter isSignificantWord)

/-- JS `words.join(' ')` at the character level. -/
def joinChars : List (List Char) → List Char
  | [] => []
  | [w] => w
  | w :: w' :: ws => w ++ ' ' :: joinChars (w' :: ws)

/-- JS `words.join(' ')`. -/
def jsJoinSpace (ws : List String) : String := ⟨joinChars (ws.map String.data)⟩

/- ================================================================
   Component Matcher — testrail-service.js, getImpactedTestCases step 2
   ================================================================ -/

/-- Character class of `[-_\s]`. -/
def isCompDelim (c : Char) : Bool := c.toNat = 45 || c.toNat = 95 || isJsSpace c

/-- The `USER_ROLES` list excluded from component matching. -/
def userRoles : List String := ["admin", "investigator", "reviewer", "applicant"]

/-- Character class of `[A-Z]`. -/
def isUpperAZ (c : Char) : Bool := 65 ≤ c.toNat && c.toNat ≤ 90

/-- JS `part.split(/(?=[A-Z])/)`: cut before every upper-case letter except
at position 0 (a zero-width match at the start does not split). -/
def splitBeforeUpper (acc : List Char) : List Char → List (List Char)
  | [] => [acc.reverse]
  | c :: cs =>
    if isUpperAZ c ∧ acc ≠ [] then acc.reverse :: splitBeforeUpper [c] cs
    else splitBeforeUpper (c :: acc) cs

/-- The cleaned part set of a JIRA component label (getImpactedTestCases,
"Remove user roles" / "split camelCase" block): split on `[-_\s]`, trim,
lowercase, drop empties, drop user roles, append the camel-case sub-words of
each part (the source computes these from the *already lowercased* parts),
deduplicate, drop empties. -/
def cleanedCompParts (jiraComp : String) : List String :=
  let compParts0 :=
    ((jsSplitChar jiraComp isCompDelim).map (fun p => toLowerStr (jsTrim p))).filter
      (fun p => p ≠ "")
  let compParts1 := compParts0.filter (fun p => !(userRoles.contains p))
  let expandedParts :=
    compParts1.flatMap (fun part =>
      ((splitBeforeUpper [] part.data).map (fun cs => toLowerStr ⟨cs⟩)))
  (jsDedup (compParts1 ++ expandedParts)).filter (fun p => p ≠ "")

/-- A traceability-matrix entry: canonical component name with its tag
list (`traceabilityMatrix.components`, in object-key insertion order). -/
structure TraceEntry where
  name : String
  tags : List String
deriving Repr, DecidableEq

/-- The bidirectional containment test of getImpactedTestCases: some cleaned
part and some word of the entry name (split on `[-_\s]+`) contain one
another as substrings. -/
def traceEntryMatches (compParts : List String) (e : TraceEntry) : Bool :=
  let trCompWords := jsSplitRun (toLowerStr e.name) isCompDelim
  compParts.any (fun part =>
    trCompWords.any (fun word => jsIncludes word part || jsIncludes part word))

/-- Component resolution (getImpactedTestCases step 2): the first matching
traceability entry's tags, or the cleaned parts themselves when no entry
matches. -/
def resolveComponentTags (table : List TraceEntry) (jiraComp : String) : List String :=
  let compParts := cleanedCompParts jiraComp
  match table.find? (traceEntryMatches compParts) with
  | some e => e.tags
  | none => compParts

/-- The search terms derived from a tag list: each tag split on `[-_\s]`,
trimmed, lowercased, kept when longer than 2, deduplicated. -/
def searchTermsOfTags (tags : List String) : List String :=
  jsDedup (tags.flatMap (fun tag =>
    ((jsSplitChar tag isCompDelim).map (fun p => toLowerStr (jsTrim p))).filter
      (fun p => decide (2 < p.length))))

/- ================================================================
   Impact Selector — testrail-service.js, getImpactedTestCases
   ================================================================ -/

/-- A test case of the suite inventory, after the source's enrichment pass
has attached `sectionPath` (built from the fetched sections; the fetch and
the URL fields are I/O plumbing and not modelled). -/
structure TRCase where
  id : Nat
  title : String
  refs : String
  sectionPath : String
deriving Repr, DecidableEq

/-- An enriched match object spread from a test case (`{...tc, matchType,
matchReason, priority, ...}`).  Direct-reference matches leave the
component-derived fields at their defaults. -/
structure MatchedCase where
  tc : TRCase
  matchType : String
  matchReason : String
  priority : Nat
  matchedComponent : Option String := none
  matchedKeywords : List String := []
  matchedFileKeywords : List String := []
deriving Repr, DecidableEq

/-- The `results` record getImpactedTestCases returns.  These five fields
are exactly the keys of the source's `results` object; `componentMatch` is
initialised empty and never written by the source. -/
structure ImpactResults where
  directJiraMatch : List MatchedCase
  componentMatch : List MatchedCase
  componentWithKeywords : List MatchedCase
  allCases : List MatchedCase
  groupedByModule : List (String × List MatchedCase)
deriving Repr, DecidableEq

/-- The options object of getImpactedTestCases.  `jiraId = ""` models a
missing/falsy ticket id.  The destructured-but-unused `components` and
`keywords` options are omitted.  `traceability` is
`traceabilityMatrix.components` as an entry list in object-key order. -/
structure ImpactOptions where
  jiraId : String := ""
  changedFiles : List BBFile := []
  traceability : List TraceEntry := []
  jiraTitle : String := ""
  prCategory : String := "Relaxed PR"
  jiraComponents : List String := []
deriving Repr, DecidableEq

/-- The `categoryLimits` table of getImpactedTestCases with its `|| 50`
default.  The source computes this `maxTestCases` value and logs it; it is
neither attached to the returned `results` object nor used to truncate any
of its collections. -/
def maxTestCasesForCategory (prCategory : String) : Nat :=
  if prCategory = "Relaxed PR" then 20
  else if prCategory = "Sleepy PR" then 30
  else if prCategory = "Sarcastic PR" then 40
  else if prCategory = "Overloaded PR" then 60
  else if prCategory = "Angry PR" then 80
  else 50

/-- First-occurrence deduplication of test cases by `id` against a running
`seen` set, as the source's `seenCaseIds` / `seenTestCaseIds` guards do. -/
def dedupCasesById (seen : List Nat) : List TRCase → List TRCase
  | [] => []
  | tc :: rest =>
    if tc.id ∈ seen then dedupCasesById seen rest
    else tc :: dedupCasesById (tc.id :: seen) rest

/-- A component-stage raw match (`step1Matches` entry): the test case, the
JIRA component that matched, the folder/term evidence, and the keyword lists
the refinement stages attach (absent before they run, as in the JS object). -/
structure CompMatch where
  tc : TRCase
  jiraComponent : String
  matchedBy : String
  matchedTerm : String
  matchedKeywords : Option (List String) := none
  matchedFileKeywords : Option (List String) := none
deriving Repr, DecidableEq

/-- The folder list of a section path: split on `>` or `›` (the JS regex
`/\s*[>›]\s*/` also absorbs the whitespace around the separator, which the
subsequent `trim` of every piece makes equivalent), trimmed, empties
dropped. -/
def foldersOfPath (sectionPath : String) : List String :=
  ((jsSplitChar sectionPath (fun c => c = '>' || c = '›')).map jsTrim).filter
    (fun f => f ≠ "")

/-- The per-component scan of the full inventory: the first search term any
folder of a case's section path contains yields a `step1Matches` entry for
that case. -/
def componentScan (inventory : List TRCase) (jiraComp : String)
    (terms : List String) : List CompMatch :=
  inventory.filterMap (fun tc =>
    let folders := foldersOfPath tc.sectionPath
    let foldersLower := folders.map toLowerStr
    match terms.find? (fun t => foldersLower.any (fun f => jsIncludes f t)) with
    | some t =>
      let folder := ((folders.zip foldersLower).find?
        (fun p => jsIncludes p.2 t)).elim "" (fun p => p.1)
      some { tc := tc, jiraComponent := jiraComp,
             matchedBy := "folder:\"" ++ folder ++ "\" contains \"" ++ t ++ "\"",
             matchedTerm := t }
    | none => none)

/-- `step1Matches` deduplicated by test-case id (`seenTestCaseIds`, a fresh
set distinct from `seenCaseIds`). -/
def dedupCompMatches (seen : List Nat) : List CompMatch → List CompMatch
  | [] => []
  | m :: rest =>
    if m.tc.id ∈ seen then dedupCompMatches seen rest
    else m :: dedupCompMatches (m.tc.id :: seen) rest

/-- JS `', JIRA Keywords: ' + ks.join(', ')`-style suffix, present only when
the refinement stage attached the field. -/
def keywordSuffix (label : String) : Option (List String) → String
  | none => ""
  | some ks => label ++ String.intercalate ", " ks

/-- The enriched test-case object the final loop builds for each surviving
component match. -/
def enrichCompMatch (m : CompMatch) : MatchedCase :=
  { tc := m.tc
    matchType := "component_with_keywords"
    matchReason := "Component: " ++ m.jiraComponent ++
      keywordSuffix ", JIRA Keywords: " m.matchedKeywords ++
      keywordSuffix ", File Keywords: " m.matchedFileKeywords
    priority := 3
    matchedComponent := some m.jiraComponent
    matchedKeywords := m.matchedKeywords.getD []
    matchedFileKeywords := m.matchedFileKeywords.getD [] }

/-- The `componentWithKeywords` / `allCases` pushes of the final loop:
enrich each surviving match, keeping only first occurrences of ids not
already claimed (by the direct-reference stage) in `seen`. -/
def buildFinalList (seen : List Nat) : List CompMatch → List MatchedCase
  | [] => []
  | m :: rest =>
    if m.tc.id ∈ seen then buildFinalList seen rest
    else enrichCompMatch m :: buildFinalList (m.tc.id :: seen) rest

/-- Append `v` to the group of key `k`, creating the group at the end on
first sight — JS object-key insertion order. -/
def addToGroup (k : String) (v : MatchedCase) :
    List (String × List MatchedCase) → List (String × List MatchedCase)
  | [] => [(k, [v])]
  | (k', vs) :: rest =>
    if k' = k then (k', vs ++ [v]) :: rest else (k', vs) :: addToGroup k v rest

/-- The `groupedBySection` accumulation of the final loop (every surviving
match is grouped, whether or not its id was already seen). -/
def buildGrouped (g : List (String × List MatchedCase)) :
    List CompMatch → List (String × List MatchedCase)
  | [] => g
  | m :: rest =>
    let sp := if m.tc.sectionPath = "" then "Unknown Section" else m.tc.sectionPath
    buildGrouped (addToGroup sp (enrichCompMatch m) g) rest

/-- The keyword-refinement stages 3 and 4 share this shape: if any keywords
exist, keep only matches whose section path or title contains one, recording
the matching keywords; with no keywords, pass every match through. -/
def refineByKeywords (kws : List String) (set : CompMatch → List String → CompMatch)
    (ms : List CompMatch) : List CompMatch :=
  if kws.isEmpty then ms
  else ms.filterMap (fun m =>
    let sectionPathLower := toLowerStr m.tc.sectionPath
    let titleLower := toLowerStr m.tc.title
    let matching := kws.filter (fun kw =>
      jsIncludes sectionPathLower (toLowerStr kw) ||
      jsIncludes titleLower (toLowerStr kw))
    if matching.isEmpty then none else some (set m matching))

/-- The direct-reference stage (`STEP 1` of getImpactedTestCases): with a
truthy ticket id, every inventory case whose reference field contains it
case-insensitively, first id occurrences only, enriched with
`jira_reference` metadata at priority 1. -/
def directMatchesOf (inventory : List TRCase) (opts : ImpactOptions) :
    List MatchedCase :=
  if opts.jiraId ≠ "" then
    (dedupCasesById []
      (inventory.filter (fun tc =>
        jsIncludes (toLowerStr tc.refs) (toLowerStr opts.jiraId)))).map
      (fun tc =>
        { tc := tc, matchType := "jira_reference",
          matchReason := "Direct JIRA reference: " ++ opts.jiraId,
          priority := 1 })
  else []

/-- Stages 2–4 of getImpactedTestCases: the component scan over every JIRA
component, deduplicated by case id, then refined by JIRA-title keywords and
by changed-file-name keywords (each refinement passing everything through
when it has no keywords).  This is the `finalMatches` list of the source. -/
def finalCompMatches (inventory : List TRCase) (opts : ImpactOptions) :
    List CompMatch :=
  let step1Matches := opts.jiraComponents.flatMap (fun jc =>
    componentScan inventory jc
      (searchTermsOfTags (resolveComponentTags opts.traceability jc)))
  let componentMatches := dedupCompMatches [] step1Matches
  let step2Matches := refineByKeywords (extractSignificantKeywords opts.jiraTitle)
    (fun m ks => { m with matchedKeywords := some ks }) componentMatches
  let filenameKeywords := jsDedup (opts.changedFiles.flatMap (fun f =>
    extractSignificantKeywords (lastSeg f.path (fun c => c = '/' || c = '\\'))))
  refineByKeywords filenameKeywords
    (fun m ks => { m with matchedFileKeywords := some ks }) step2Matches

/-- `getImpactedTestCases(suiteId, options)` from testrail-service.js, from
the point where the paginated fetches and section-path enrichment (I/O) have
produced the in-memory `allCases` inventory: the staged matching pipeline
that builds the `results` record. -/
def getImpactedTestCases (inventory : List TRCase) (opts : ImpactOptions) :
    ImpactResults :=
  let direct := directMatchesOf inventory opts
  let seen1 := direct.map (fun m => m.tc.id)
  if opts.jiraComponents ≠ [] then
    let step3Matches := finalCompMatches inventory opts
    { directJiraMatch := direct
      componentMatch := []
      componentWithKeywords := buildFinalList seen1 step3Matches
      allCases := direct ++ buildFinalList seen1 step3Matches
      groupedByModule := buildGrouped [] step3Matches }
  else
    { directJiraMatch := direct
      componentMatch := []
      componentWithKeywords := []
      allCases := direct ++ []
      groupedByModule := [] }

/- ================================================================
   Relevance Scorer — testrail-service.js,
   scoreRegressionTestsForRelevance and helpers
   ================================================================ -/

/-- A regression test case as the scorer reads it.  String fields model
`x || ''` for absent values; `section_id = 0` and `priority_id = 0` model
the falsy/absent ids; `customFieldsJson` is the
`JSON.stringify(custom_fields || {})` text the scorer searches. -/
structure RegTestCase where
  title : String
  refs : String
  customFieldsJson : String
  sectionPath : String
  section_id : Nat
  priority_id : Nat
deriving Repr, DecidableEq

/-- Character class of `[A-Za-z0-9_]`, the JS `\w` used by `\b`. -/
def isWordChar (c : Char) : Bool :=
  (97 ≤ c.toNat && c.toNat ≤ 122) || (65 ≤ c.toNat && c.toNat ≤ 90) ||
  (48 ≤ c.toNat && c.toNat ≤ 57) || c.toNat = 95

/-- If `pat` is a leading block of `s`, the remainder of `s` after it. -/
def matchAfter : List Char → List Char → Option (List Char)
  | [], s => some s
  | _ :: _, [] => none
  | p :: ps, c :: cs => if p = c then matchAfter ps cs else none

/-- The `\b` condition on the left of a match: start of string or a
non-word character before the match. -/
def leftBoundaryOk (needLeft : Bool) : Option Char → Bool
  | none => true
  | some c => !needLeft || !isWordChar c

/-- The `\b` condition on the right of a match: end of string or a
non-word character after the match. -/
def rightBoundaryOk (needRight : Bool) : List Char → Bool
  | [] => true
  | c :: _ => !needRight || !isWordChar c

/-- Scan for an occurrence of `pat` with the requested `\b` conditions on
each side (`prev` is the character before the current position). -/
def boundarySearch (needLeft needRight : Bool) (pat : List Char)
    (prev : Option Char) : List Char → Bool
  | [] =>
    (match matchAfter pat [] with
     | some rest => leftBoundaryOk needLeft prev && rightBoundaryOk needRight rest
     | none => false)
  | c :: cs =>
    (match matchAfter pat (c :: cs) with
     | some rest => leftBoundaryOk needLeft prev && rightBoundaryOk needRight rest
     | none => false) || boundarySearch needLeft needRight pat (some c) cs

/-- The bug-fix test of `extractPRContext`:
`/^fix\(|\bfix:|\bbug\b|\bbugfix\b|\bissue\b/.test(titleLower)`. -/
def isBugFixTitle (titleLower : String) : Bool :=
  jsStartsWith titleLower "fix(" ||
  boundarySearch true false "fix:".data none titleLower.data ||
  boundarySearch true true "bug".data none titleLower.data ||
  boundarySearch true true "bugfix".data none titleLower.data ||
  boundarySearch true true "issue".data none titleLower.data

/-- The `fileTypes` counts of `extractPRContext`. -/
structure PRFileTypes where
  html : Nat
  ts : Nat
  js : Nat
  css : Nat
  java : Nat
  both : Bool
deriving Repr, DecidableEq

/-- The PR context extracted by `extractPRContext`. -/
structure PRContext where
  uiElements : List String
  behaviors : List String
  isBugFix : Bool
  fileTypes : PRFileTypes
deriving Repr, DecidableEq

/-- `uiElementPatterns` of extractPRContext. -/
def uiElementPatterns : List String :=
  ["button", "submit", "dropdown", "checkbox", "radio", "input", "field",
   "form", "modal", "dialog", "popup", "menu", "tab", "panel", "table",
   "grid", "list", "card", "link", "icon", "image", "tooltip", "notification"]

/-- `behaviorPatterns` of extractPRContext. -/
def behaviorPatterns : List String :=
  ["always available", "always visible", "always enabled", "disabled", "enabled",
   "hidden", "visible", "validation", "required", "optional", "mandatory",
   "editable", "readonly", "clickable", "selectable", "expandable", "collapsible",
   "loading", "error", "success", "warning", "submitted", "saved", "deleted"]

/-- `extractPRContext(prTitle, prDescription, changedFiles)` from
testrail-service.js. -/
def extractPRContext (prTitle prDescription : String) (changedFiles : List BBFile) :
    PRContext :=
  let titleLower := toLowerStr prTitle
  let descLower := toLowerStr prDescription
  let combined := titleLower ++ " " ++ descLower
  let countBy (p : BBFile → Bool) : Nat := (changedFiles.filter p).length
  let pathL (f : BBFile) : String := toLowerStr f.path
  let html := countBy (fun f => jsEndsWith (pathL f) ".html" || jsEndsWith (pathL f) ".htm")
  let ts := countBy (fun f => jsEndsWith (pathL f) ".ts")
  let js := countBy (fun f => jsEndsWith (pathL f) ".js" || jsEndsWith (pathL f) ".jsx")
  let css := countBy (fun f => jsEndsWith (pathL f) ".css" || jsEndsWith (pathL f) ".scss" ||
    jsEndsWith (pathL f) ".sass")
  let java := countBy (fun f => jsEndsWith (pathL f) ".java")
  { uiElements := uiElementPatterns.filter (fun el => jsIncludes combined el)
    behaviors := behaviorPatterns.filter (fun bh => jsIncludes combined bh)
    isBugFix := isBugFixTitle titleLower
    fileTypes := { html := html, ts := ts, js := js, css := css, java := java,
                   both := decide (0 < html) && (decide (0 < ts) || decide (0 < js) ||
                     decide (0 < java)) } }

/-- `calculateFileTypeRelevance(fileTypes, testTitle)` from
testrail-service.js: a bonus assigned (not accumulated) by three mutually
exclusive change shapes. -/
def calculateFileTypeRelevance (ft : PRFileTypes) (testTitle : String) : Int :=
  let uiKeywords := ["display", "render", "visible", "shown", "appear", "ui", "layout", "screen"]
  let logicKeywords := ["validate", "calculate", "process", "save", "submit", "api", "service", "logic", "function"]
  let integrationKeywords := ["integration", "end-to-end", "e2e", "workflow", "complete", "full"]
  let bonus : Int := 0
  let bonus := if 0 < ft.html ∧ ft.ts = 0 ∧ ft.js = 0 ∧ ft.java = 0 ∧
      uiKeywords.any (fun kw => jsIncludes testTitle kw) then 20 else bonus
  let bonus := if (0 < ft.ts ∨ 0 < ft.js ∨ 0 < ft.java) ∧ ft.html = 0 ∧
      logicKeywords.any (fun kw => jsIncludes testTitle kw) then 20 else bonus
  let bonus := if ft.both then
      (if integrationKeywords.any (fun kw => jsIncludes testTitle kw) then 30
       else if jsIncludes testTitle "verify" || jsIncludes testTitle "test" then 15
       else bonus)
    else bonus
  bonus

/-- `getSectionPathDepth(testCase)` from testrail-service.js. -/
def getSectionPathDepth (tc : RegTestCase) : Nat :=
  if tc.sectionPath ≠ "" then (String.splitOn tc.sectionPath " > ").length else 0

/-- `checkSectionPathMatch(testCase, components, functionalAreas)` from
testrail-service.js (the score of the returned record; its `reason` string
is log-only). -/
def checkSectionPathMatch (tc : RegTestCase) (components functionalAreas : List String) :
    Int :=
  if tc.sectionPath = "" then 0
  else
    let pathParts := String.splitOn (toLowerStr tc.sectionPath) " > "
    if pathParts.length < 2 then 0
    else if components.any (fun comp =>
        pathParts.any (fun part => jsIncludes part (toLowerStr comp))) then 30
    else if functionalAreas.any (fun area =>
        pathParts.any (fun part => jsIncludes part (toLowerStr area))) then 25
    else 0

/-- `isGenericTest(testTitle, components)` from testrail-service.js
(`testTitle` is already lowercased at every call site). -/
def isGenericTest (testTitle : String) (components : List String) : Bool :=
  let titleWords := jsSplitRun testTitle isJsSpace
  let specificKeywords := ["form", "button", "field", "page", "screen", "api", "endpoint",
    "submit", "save", "delete", "update", "create", "validate",
    "search", "filter", "sort", "export", "import", "upload", "download"]
  if !(specificKeywords.any (fun kw => jsIncludes testTitle kw)) then
    components.any (fun comp =>
      jsIncludes testTitle (toLowerStr comp) && decide (titleWords.length < 8))
  else false

/-- JS-object upsert for an association list: replace in place on an
existing key, append a new key at the end. -/
def upsertAssoc (k v : String) : List (String × String) → List (String × String)
  | [] => [(k, v)]
  | (k', v') :: rest =>
    if k' = k then (k, v) :: rest else (k', v') :: upsertAssoc k v rest

/-- `mapFilesToFunctionalAreas(files)` from testrail-service.js, with the
`config.traceabilityMatrix.components` it reads passed explicitly: build
the tag→component map, then collect (in tag-map order, per file) every
component one of whose tags occurs in the file's lowercased path. -/
def mapFilesToFunctionalAreas (matrix : List TraceEntry) (files : List BBFile) :
    List String :=
  let tagToComponent := matrix.foldl (fun m e =>
    e.tags.foldl (fun m tag => upsertAssoc (toLowerStr tag) e.name m) m) []
  jsDedup (files.flatMap (fun f =>
    tagToComponent.filterMap (fun p =>
      if jsIncludes (toLowerStr f.path) p.1 then some p.2 else none)))

/-- The shared/core-impact check of scoreRegressionTestsForRelevance. -/
def hasSharedComponentImpactOf (changedFiles : List BBFile) : Bool :=
  changedFiles.any (fun f =>
    let path := toLowerStr f.path
    jsIncludes path "shared" || jsIncludes path "core" ||
    jsIncludes path "common" || jsIncludes path "utils" ||
    jsIncludes path "service" || jsIncludes path "api")

/-- The extension-stripped, lowercased stem of a changed file's name
(`file.path.split('/').pop().replace(/\.[^/.]+$/, '').toLowerCase()`). -/
def fileStem (path : String) : String :=
  toLowerStr (stripExt (lastSeg path (fun c => c = '/')))

/-- The per-run inputs the scorer computes once before scoring each test
case. -/
structure ScoringContext where
  components : List String
  keywords : List String
  changedFiles : List BBFile
  functionalAreas : List String
  sharedImpact : Bool
  prContext : PRContext
deriving Repr, DecidableEq

/-- The pre-clamp additive score of one regression test case: steps 1–12 of
the scoring loop in `scoreRegressionTestsForRelevance` (signal order and
weights as in the source; `matchDetails` strings are log-only and not
modelled). -/
def rawRelevanceScore (ctx : ScoringContext) (tc : RegTestCase) : Int :=
  let title := toLowerStr tc.title
  let refs := toLowerStr tc.refs
  let customFields := toLowerStr tc.customFieldsJson
  let searchText := title ++ " " ++ refs ++ " " ++ customFields
  let sectionPath := toLowerStr tc.sectionPath
  -- 1. Section path matching
  let s1 : Int :=
    if tc.sectionPath ≠ "" then
      let pathParts := (String.splitOn sectionPath " > ").map jsTrim
      35 * ((ctx.components.filter (fun comp =>
              pathParts.any (fun part => jsIncludes part (toLowerStr comp)))).length : Int) +
      30 * ((ctx.functionalAreas.filter (fun area =>
              pathParts.any (fun part => jsIncludes part (toLowerStr area)))).length : Int) +
      25 * ((ctx.changedFiles.filter (fun f =>
              let fileName := fileStem f.path
              decide (3 < fileName.length) &&
                pathParts.any (fun part => jsIncludes part fileName))).length : Int) +
      20 * ((ctx.keywords.filter (fun kw =>
              pathParts.any (fun part => jsIncludes part (toLowerStr kw)))).length : Int)
    else 0
  -- 2. Title: functional-area match (+40 each)
  let s2 : Int := 40 * ((ctx.functionalAreas.filter (fun area =>
    jsIncludes title (toLowerStr area))).length : Int)
  -- 3. Title: component-word match (+30 per word of length > 3)
  let s3 : Int := 30 * ((ctx.components.flatMap (fun comp =>
    (jsSplitRun (toLowerStr comp) isJsSpace).filter (fun word =>
      decide (3 < word.length) && jsIncludes title word))).length : Int)
  -- 4. Title: keyword match (+20 each)
  let s4 : Int := 20 * ((ctx.keywords.filter (fun kw =>
    jsIncludes title (toLowerStr kw))).length : Int)
  -- 5. Title: changed-file stem match (+35 each)
  let s5 : Int := 35 * ((ctx.changedFiles.filter (fun f =>
    let fileName := fileStem f.path
    decide (3 < fileName.length) && jsIncludes title fileName)).length : Int)
  -- 6. API/screen pattern matches (+20 per pattern-file pair)
  let apiPatterns := ["api", "endpoint", "service", "rest", "graphql"]
  let uiPatterns := ["screen", "page", "view", "component", "modal", "dialog"]
  let s6a : Int := 20 * (((apiPatterns.filter (fun p => jsIncludes searchText p)).map
    (fun p => (ctx.changedFiles.filter (fun f =>
      jsIncludes (toLowerStr f.path) p || jsIncludes (toLowerStr f.path) "api")).length)).sum : Int)
  let s6b : Int := 20 * (((uiPatterns.filter (fun p => jsIncludes searchText p)).map
    (fun _ => (ctx.changedFiles.filter (fun f =>
      jsIncludes (toLowerStr f.path) "component" || jsIncludes (toLowerStr f.path) "view" ||
      jsIncludes (toLowerStr f.path) ".html")).length)).sum : Int)
  -- 6'. Critical/smoke bonus
  let isCritical := jsIncludes title "smoke" || jsIncludes title "critical" ||
    jsIncludes title "p0" || jsIncludes title "p1" ||
    (decide (tc.priority_id ≠ 0) && decide (tc.priority_id ≤ 2))
  let sCrit : Int := if isCritical && ctx.sharedImpact then 50
    else if isCritical then 10 else 0
  -- 7. Keyword present only outside the title (+5 each)
  let s7 : Int := 5 * ((ctx.keywords.filter (fun kw =>
    !jsIncludes title (toLowerStr kw) && jsIncludes searchText (toLowerStr kw))).length : Int)
  -- 8. PR-context match (capped at 40)
  let s8 : Int :=
    if !ctx.prContext.uiElements.isEmpty || !ctx.prContext.behaviors.isEmpty then
      let e := ctx.prContext.uiElements.filter (fun el => jsIncludes title el)
      let b := ctx.prContext.behaviors.filter (fun bh => jsIncludes title bh)
      let contextScore : Int := 20 * (e.length : Int) + 15 * (b.length : Int)
      let contextScore := if 2 ≤ e.length + b.length then contextScore + 20 else contextScore
      min contextScore 40
    else 0
  -- 9. Bug-fix context
  let negativeScenarioKeywords := ["should not", "prevent", "disable", "block", "reject",
    "invalid", "error", "validation", "verify", "edge case"]
  let s9 : Int :=
    if ctx.prContext.isBugFix then
      (if negativeScenarioKeywords.any (fun kw => jsIncludes title kw) then 25 else 0) +
      (if ctx.components.any (fun comp => jsIncludes title (toLowerStr comp)) &&
          jsIncludes title "regression" then 30 else 0)
    else 0
  -- 10. File-type relevance
  let fileTypeBonus := calculateFileTypeRelevance ctx.prContext.fileTypes title
  let s10 : Int := if 0 < fileTypeBonus then fileTypeBonus else 0
  -- 11. Section-path depth
  let s11 : Int :=
    if tc.section_id ≠ 0 then
      let sectionPathDepth := getSectionPathDepth tc
      if 2 ≤ sectionPathDepth then
        let spm := checkSectionPathMatch tc ctx.components ctx.functionalAreas
        if 0 < spm then spm else 0
      else if sectionPathDepth = 1 then
        if isGenericTest title ctx.components then -20 else 0
      else 0
    else 0
  let base := s1 + s2 + s3 + s4 + s5 + s6a + s6b + sCrit + s7 + s8 + s9 + s10 + s11
  -- 12. Generic-test penalty
  if isGenericTest title ctx.components ∧ base < 50 then base - 20 else base

/-- The per-case score after the source's final clamp
`Math.min(Math.max(score, 0), 100)`. -/
def scoreTestCase (ctx : ScoringContext) (tc : RegTestCase) : Int :=
  min (max (rawRelevanceScore ctx tc) 0) 100

/-- A `scoredTests` entry. -/
structure ScoredTest where
  testCase : RegTestCase
  score : Int
deriving Repr, DecidableEq

/-- A returned `topTests` entry (`{...st.testCase, relevanceScore, ...}`;
the log-only `matchDetails` list is not modelled). -/
structure RankedTest where
  testCase : RegTestCase
  relevanceScore : Int
deriving Repr, DecidableEq

/-- `determinePRType(filesChanged)` from testrail-service.js. -/
def determinePRType (filesChanged : Nat) : String :=
  if filesChanged ≤ 2 then "Relaxed"
  else if filesChanged ≤ 5 then "Sleepy"
  else if filesChanged ≤ 10 then "Sarcastic"
  else if filesChanged ≤ 20 then "Overloaded"
  else "Angry"

/-- `getMaxTestsForPRSize(filesChanged)` from testrail-service.js. -/
def getMaxTestsForPRSize (filesChanged : Nat) : Nat :=
  if filesChanged ≤ 2 then 10
  else if filesChanged ≤ 5 then 15
  else if filesChanged ≤ 10 then 20
  else if filesChanged ≤ 20 then 40
  else 60

/-- `scoreRegressionTestsForRelevance(regressionTests, changedFiles,
components, keywords, prTitle, prDescription)` from testrail-service.js,
with the `config.traceabilityMatrix.components` read by
`mapFilesToFunctionalAreas` passed explicitly: score every test, keep the
strictly positive scores, sort descending (JS `sort` is stable, as is
`mergeSort`), apply the cascading 60/40/25/top-10 threshold fallback, and
return at most `getMaxTestsForPRSize` of the survivors. -/
def scoringContextOf (matrix : List TraceEntry) (changedFiles : List BBFile)
    (components keywords : List String) (prTitle prDescription : String) :
    ScoringContext :=
  { components := components, keywords := keywords, changedFiles := changedFiles,
    functionalAreas := mapFilesToFunctionalAreas matrix changedFiles,
    sharedImpact := hasSharedComponentImpactOf changedFiles,
    prContext := extractPRContext prTitle prDescription changedFiles }

/-- The `scoredTests` array after the scoring loop and the in-place
descending sort (the JS `sort` and `mergeSort` are both stable, so they
agree on this consistent comparator): only strictly positive clamped
scores are kept. -/
def sortedScoredTests (ctx : ScoringContext) (regressionTests : List RegTestCase) :
    List ScoredTest :=
  (regressionTests.filterMap (fun tc =>
    let score := scoreTestCase ctx tc
    if 0 < score then some ({ testCase := tc, score := score } : ScoredTest)
    else none)).mergeSort (fun a b => decide (b.score ≤ a.score))

/-- The cascading threshold fallback of scoreRegressionTestsForRelevance:
keep scores ≥ 60, retry at 40 then at 25 when empty, and finally fall back
to the top ten by score. -/
def relevantTestsOf (sorted : List ScoredTest) : List ScoredTest :=
  let rel1 := sorted.filter (fun st => decide (60 ≤ st.score))
  let rel2 := if rel1.isEmpty && !sorted.isEmpty then
    sorted.filter (fun st => decide (40 ≤ st.score)) else rel1
  let rel3 := if rel2.isEmpty && !sorted.isEmpty then
    sorted.filter (fun st => decide (25 ≤ st.score)) else rel2
  if rel3.isEmpty && !sorted.isEmpty then sorted.take 10 else rel3

def scoreRegressionTestsForRelevance (matrix : List TraceEntry)
    (regressionTests : List RegTestCase) (changedFiles : List BBFile)
    (components keywords : List String) (prTitle prDescription : String) :
    List RankedTest :=
  let ctx := scoringContextOf matrix changedFiles components keywords prTitle prDescription
  let sorted := sortedScoredTests ctx regressionTests
  let maxTests := getMaxTestsForPRSize changedFiles.length
  ((relevantTestsOf sorted).take maxTests).map (fun st =>
    { testCase := st.testCase, relevanceScore := st.score })

/- ================================================================
   Theorems
   ================================================================ -/

/-- C4 counterexample: the claim's Overloaded test reads `riskScore > 85`
with the rounded risk score §4.5 defines, but the source compares the raw
min value.  For 5 changed files of which 3 are shared and 1001 total lines
the raw value is 85.05: the code decides "Overloaded PR", while the claim's
precedence — rounded riskScore 85, not above 85, 3 shared components, not
above 3 — falls through to "Angry PR" (1001 lines > 500). -/
theorem category_not_from_rounded_riskScore :
    (analyzePR "Add reporting dashboard"
      [⟨"shared/a.js", 500, 0⟩, ⟨"shared/b.js", 300, 0⟩, ⟨"shared/c.js", 200, 1⟩,
       ⟨"d.js", 0, 0⟩, ⟨"e.js", 0, 0⟩]).category = "Overloaded PR" ∧
    specCategoryDecision "Add reporting dashboard"
      [⟨"shared/a.js", 500, 0⟩, ⟨"shared/b.js", 300, 0⟩, ⟨"shared/c.js", 200, 1⟩,
       ⟨"d.js", 0, 0⟩, ⟨"e.js", 0, 0⟩] = "Angry PR" ∧
    jsRound (riskScoreRaw
      [⟨"shared/a.js", 500, 0⟩, ⟨"shared/b.js", 300, 0⟩, ⟨"shared/c.js", 200, 1⟩,
       ⟨"d.js", 0, 0⟩, ⟨"e.js", 0, 0⟩]) = 85 := by
  have h1 : sharedComponentsOf
      [⟨"shared/a.js", 500, 0⟩, ⟨"shared/b.js", 300, 0⟩, ⟨"shared/c.js", 200, 1⟩,
       ⟨"d.js", 0, 0⟩, ⟨"e.js", 0, 0⟩] = 3 := by decide
  have h2 : totalLinesOf
      [⟨"shared/a.js", 500, 0⟩, ⟨"shared/b.js", 300, 0⟩, ⟨"shared/c.js", 200, 1⟩,
       ⟨"d.js", 0, 0⟩, ⟨"e.js", 0, 0⟩] = 1001 := by decide
  have h : riskScoreRaw
      [⟨"shared/a.js", 500, 0⟩, ⟨"shared/b.js", 300, 0⟩, ⟨"shared/c.js", 200, 1⟩,
       ⟨"d.js", 0, 0⟩, ⟨"e.js", 0, 0⟩] = 1701 / 20 := by
    rw [riskScoreRaw, h1, h2]
    rw [min_eq_right (by norm_num)]
    norm_num
  have hr : jsRound (riskScoreRaw
      [⟨"shared/a.js", 500, 0⟩, ⟨"shared/b.js", 300, 0⟩, ⟨"shared/c.js", 200, 1⟩,
       ⟨"d.js", 0, 0⟩, ⟨"e.js", 0, 0⟩]) = 85 := by
    rw [h, jsRound]
    norm_num
  refine ⟨?_, ?_, hr⟩
  · show specCategoryDecisionUnrounded "Add reporting dashboard"
      [⟨"shared/a.js", 500, 0⟩, ⟨"shared/b.js", 300, 0⟩, ⟨"shared/c.js", 200, 1⟩,
       ⟨"d.js", 0, 0⟩, ⟨"e.js", 0, 0⟩] = "Overloaded PR"
    unfold specCategoryDecisionUnrounded
    rw [if_neg (by decide), if_neg (by decide),
      if_pos (Or.inr (by rw [h]; norm_num))]
  · unfold specCategoryDecision
    rw [if_neg (by decide), if_neg (by decide)]
    rw [if_neg (fun hor => by
      rcases hor with hs | hround
      · rw [h1] at hs
        exact absurd hs (by norm_num)
      · rw [hr] at hround
        exact absurd hround (by norm_num))]
    rw [if_pos (Or.inr (by decide))]

/-- C4 (amended): `analyzePR` decides the category by the precedence with
first match winning — all-style files → Sleepy; minor/quick/small/fix title
with more than 5 files or more than 100 lines → Sarcastic; more than 3
shared components or raw (pre-rounding) risk value above 85 → Overloaded;
more than 10 files or more than 500 lines → Angry; otherwise Relaxed — and
the scenario filesChanged = 3, totalLinesChanged = 250, title
"Quick fix for login" yields Sarcastic. -/
theorem analyzePR_category_precedence_unrounded :
    (∀ (title : String) (files : List BBFile),
      (analyzePR title files).category = specCategoryDecisionUnrounded title files) ∧
    (analyzePR "Quick fix for login"
      [⟨"src/login/a.js", 100, 50⟩, ⟨"src/login/b.js", 50, 30⟩,
       ⟨"src/login/c.js", 10, 10⟩]).category = "Sarcastic PR" :=
  ⟨fun _ _ => rfl, by decide⟩

/-- C5 counterexample: for 9 changed files of which 2 are shared and 10
total lines, the raw risk value is 29.5, so the returned (rounded)
`riskScore` is 30 while `riskLevel` is "Low" — the claim's reading
"30 ≤ riskScore → Medium" is false on the code, because the level is
computed from the raw value before rounding. -/
theorem riskLevel_not_from_rounded_riskScore :
    (analyzePR "Add reporting"
      [⟨"shared/a.js", 5, 0⟩, ⟨"shared/b.js", 5, 0⟩, ⟨"f1.js", 0, 0⟩,
       ⟨"f2.js", 0, 0⟩, ⟨"f3.js", 0, 0⟩, ⟨"f4.js", 0, 0⟩, ⟨"f5.js", 0, 0⟩,
       ⟨"f6.js", 0, 0⟩, ⟨"f7.js", 0, 0⟩]).riskScore = 30 ∧
    (analyzePR "Add reporting"
      [⟨"shared/a.js", 5, 0⟩, ⟨"shared/b.js", 5, 0⟩, ⟨"f1.js", 0, 0⟩,
       ⟨"f2.js", 0, 0⟩, ⟨"f3.js", 0, 0⟩, ⟨"f4.js", 0, 0⟩, ⟨"f5.js", 0, 0⟩,
       ⟨"f6.js", 0, 0⟩, ⟨"f7.js", 0, 0⟩]).riskLevel = "Low" := by
  have h1 : sharedComponentsOf
      [⟨"shared/a.js", 5, 0⟩, ⟨"shared/b.js", 5, 0⟩, ⟨"f1.js", 0, 0⟩,
       ⟨"f2.js", 0, 0⟩, ⟨"f3.js", 0, 0⟩, ⟨"f4.js", 0, 0⟩, ⟨"f5.js", 0, 0⟩,
       ⟨"f6.js", 0, 0⟩, ⟨"f7.js", 0, 0⟩] = 2 := by decide
  have h2 : totalLinesOf
      [⟨"shared/a.js", 5, 0⟩, ⟨"shared/b.js", 5, 0⟩, ⟨"f1.js", 0, 0⟩,
       ⟨"f2.js", 0, 0⟩, ⟨"f3.js", 0, 0⟩, ⟨"f4.js", 0, 0⟩, ⟨"f5.js", 0, 0⟩,
       ⟨"f6.js", 0, 0⟩, ⟨"f7.js", 0, 0⟩] = 10 := by decide
  have h : riskScoreRaw
      [⟨"shared/a.js", 5, 0⟩, ⟨"shared/b.js", 5, 0⟩, ⟨"f1.js", 0, 0⟩,
       ⟨"f2.js", 0, 0⟩, ⟨"f3.js", 0, 0⟩, ⟨"f4.js", 0, 0⟩, ⟨"f5.js", 0, 0⟩,
       ⟨"f6.js", 0, 0⟩, ⟨"f7.js", 0, 0⟩] = 59 / 2 := by
    rw [riskScoreRaw, h1, h2]
    rw [min_eq_right (by norm_num)]
    norm_num
  refine ⟨?_, ?_⟩ <;> simp only [analyzePR, h] <;> norm_num [jsRound]

/-- C5 (amended): the returned `riskScore` is
`round(min(100, files·1 + shared·10 + lines·0.05))`, but `riskLevel` is
assigned from the raw (un-rounded) min value — Low below 30, Medium on
[30, 70), High at or above 70; the scenario filesChanged = 15,
sharedComponentsTouched = 0, totalLinesChanged = 300 gives riskScore 30 and
riskLevel Medium. -/
theorem analyzePR_riskScore_riskLevel :
    (∀ (title : String) (files : List BBFile),
      (analyzePR title files).riskScore = jsRound (riskScoreRaw files) ∧
      (analyzePR title files).riskLevel =
        (if riskScoreRaw files < 30 then "Low"
         else if riskScoreRaw files < 70 then "Medium" else "High")) ∧
    (let files := [(⟨"w1.js", 20, 0⟩ : BBFile), ⟨"w2.js", 20, 0⟩, ⟨"w3.js", 20, 0⟩,
       ⟨"w4.js", 20, 0⟩, ⟨"w5.js", 20, 0⟩, ⟨"w6.js", 20, 0⟩, ⟨"w7.js", 20, 0⟩,
       ⟨"w8.js", 20, 0⟩, ⟨"w9.js", 20, 0⟩, ⟨"w10.js", 20, 0⟩, ⟨"w11.js", 20, 0⟩,
       ⟨"w12.js", 20, 0⟩, ⟨"w13.js", 20, 0⟩, ⟨"w14.js", 20, 0⟩, ⟨"w15.js", 20, 0⟩]
     (analyzePR "Add new reporting widget" files).riskScore = 30 ∧
     (analyzePR "Add new reporting widget" files).riskLevel = "Medium") := by
  refine ⟨fun _ _ => ⟨rfl, rfl⟩, ?_⟩
  have h1 : sharedComponentsOf
      [⟨"w1.js", 20, 0⟩, ⟨"w2.js", 20, 0⟩, ⟨"w3.js", 20, 0⟩,
       ⟨"w4.js", 20, 0⟩, ⟨"w5.js", 20, 0⟩, ⟨"w6.js", 20, 0⟩, ⟨"w7.js", 20, 0⟩,
       ⟨"w8.js", 20, 0⟩, ⟨"w9.js", 20, 0⟩, ⟨"w10.js", 20, 0⟩, ⟨"w11.js", 20, 0⟩,
       ⟨"w12.js", 20, 0⟩, ⟨"w13.js", 20, 0⟩, ⟨"w14.js", 20, 0⟩, ⟨"w15.js", 20, 0⟩] = 0 := by
    decide
  have h2 : totalLinesOf
      [⟨"w1.js", 20, 0⟩, ⟨"w2.js", 20, 0⟩, ⟨"w3.js", 20, 0⟩,
       ⟨"w4.js", 20, 0⟩, ⟨"w5.js", 20, 0⟩, ⟨"w6.js", 20, 0⟩, ⟨"w7.js", 20, 0⟩,
       ⟨"w8.js", 20, 0⟩, ⟨"w9.js", 20, 0⟩, ⟨"w10.js", 20, 0⟩, ⟨"w11.js", 20, 0⟩,
       ⟨"w12.js", 20, 0⟩, ⟨"w13.js", 20, 0⟩, ⟨"w14.js", 20, 0⟩, ⟨"w15.js", 20, 0⟩] = 300 := by
    decide
  have h : riskScoreRaw
      [⟨"w1.js", 20, 0⟩, ⟨"w2.js", 20, 0⟩, ⟨"w3.js", 20, 0⟩,
       ⟨"w4.js", 20, 0⟩, ⟨"w5.js", 20, 0⟩, ⟨"w6.js", 20, 0⟩, ⟨"w7.js", 20, 0⟩,
       ⟨"w8.js", 20, 0⟩, ⟨"w9.js", 20, 0⟩, ⟨"w10.js", 20, 0⟩, ⟨"w11.js", 20, 0⟩,
       ⟨"w12.js", 20, 0⟩, ⟨"w13.js", 20, 0⟩, ⟨"w14.js", 20, 0⟩, ⟨"w15.js", 20, 0⟩] = 30 := by
    rw [riskScoreRaw, h1, h2]
    rw [min_eq_right (by norm_num)]
    norm_num
  refine ⟨?_, ?_⟩ <;> simp only [analyzePR, h] <;> norm_num [jsRound]

/-- C6: the claimed camel-case sub-word expansion can never fire, because
the source lowercases every part before splitting on `/(?=[A-Z])/`: the
component label "phsTemplates" yields the part set ["phstemplates"], not
the claimed sub-words "phs" and "templates".  This contradicts the
source's own inline comment (`e.g., "phsTemplates" → ["phs", "templates"]`)
directly above the split. -/
theorem camelCase_expansion_never_fires :
    cleanedCompParts "phsTemplates" = ["phstemplates"] ∧
    "phs" ∉ cleanedCompParts "phsTemplates" ∧
    "templates" ∉ cleanedCompParts "phsTemplates" := by
  refine ⟨by decide, by decide, by decide⟩

/-- C7 counterexample: two invocations of getImpactedTestCases that are
identical except for the PR category — whose caps are 20 and 80 — return
equal results on an inventory with a direct match.  The computed
`maxTestCases` cap is therefore not exposed anywhere on the result, contrary
to the claim that it is advisory metadata "alongside the full match
collections". -/
theorem impact_result_ignores_category :
    getImpactedTestCases
      [⟨101, "Verify webform submit", "PROJ-1", "Forms › Applicant"⟩]
      { jiraId := "PROJ-1", prCategory := "Relaxed PR" } =
    getImpactedTestCases
      [⟨101, "Verify webform submit", "PROJ-1", "Forms › Applicant"⟩]
      { jiraId := "PROJ-1", prCategory := "Angry PR" } := rfl

/-- C7 (amended): getImpactedTestCases computes the per-category cap
(Relaxed→20, Sleepy→30, Sarcastic→40, Overloaded→60, Angry→80, default 50)
but only logs it: the returned result does not carry it and is entirely
independent of the PR category, and the cap is not applied as a truncation
of `allCases` — an inventory with 21 direct matches returns all 21 cases
under "Relaxed PR", whose cap is 20. -/
theorem impact_cap_advisory_only :
    (maxTestCasesForCategory "Relaxed PR" = 20 ∧
     maxTestCasesForCategory "Sleepy PR" = 30 ∧
     maxTestCasesForCategory "Sarcastic PR" = 40 ∧
     maxTestCasesForCategory "Overloaded PR" = 60 ∧
     maxTestCasesForCategory "Angry PR" = 80 ∧
     maxTestCasesForCategory "anything else" = 50) ∧
    (∀ (inventory : List TRCase) (opts : ImpactOptions) (c : String),
      getImpactedTestCases inventory { opts with prCategory := c } =
        getImpactedTestCases inventory opts) ∧
    ((getImpactedTestCases
        ((List.range 21).map (fun i => ⟨i, "test", "PROJ-9", ""⟩))
        { jiraId := "PROJ-9", prCategory := "Relaxed PR" }).allCases.length = 21) :=
  ⟨⟨rfl, rfl, rfl, rfl, rfl, rfl⟩, fun _ _ _ => rfl, by decide⟩

/-- C8 counterexample: the non-empty ticket component label "Admin"
consists only of a user-role token, so its cleaned part set is empty and
component resolution yields an empty tag set even against a table that
cannot match — the component is silently dropped, contrary to the claim
that a non-empty label never yields zero tags. -/
theorem role_only_component_yields_no_tags :
    ("Admin" : String) ≠ "" ∧
    resolveComponentTags [⟨"Webform", ["webform", "form-submission"]⟩] "Admin" = [] :=
  ⟨by decide, by decide⟩

/-- C8 (amended): whenever a ticket component's cleaned part set (after
role-token removal) is non-empty and no traceability entry matches it under
the bidirectional containment test, the cleaned parts themselves become the
tag set, which is then non-empty — such a component is not dropped.  (A
label consisting only of role tokens cleans to the empty part set and does
yield zero tags.) -/
theorem no_mapping_falls_back_to_parts (table : List TraceEntry) (jiraComp : String)
    (h1 : cleanedCompParts jiraComp ≠ [])
    (h2 : table.find? (traceEntryMatches (cleanedCompParts jiraComp)) = none) :
    resolveComponentTags table jiraComp = cleanedCompParts jiraComp ∧
    resolveComponentTags table jiraComp ≠ [] := by
  have h : resolveComponentTags table jiraComp = cleanedCompParts jiraComp := by
    unfold resolveComponentTags
    simp only [h2]
  exact ⟨h, h ▸ h1⟩

/-- Witness for C8's amended theorem at a concrete component and the empty
table. -/
theorem no_mapping_falls_back_to_parts_witness :
    resolveComponentTags [] "Webform" = cleanedCompParts "Webform" ∧
    resolveComponentTags [] "Webform" ≠ [] :=
  no_mapping_falls_back_to_parts [] "Webform" (by decide) rfl

/-- Structural form of `getImpactedTestCases`: its five result fields in
terms of the named stages. -/
theorem getImpactedTestCases_unfold (inventory : List TRCase) (opts : ImpactOptions) :
    getImpactedTestCases inventory opts =
      { directJiraMatch := directMatchesOf inventory opts
        componentMatch := []
        componentWithKeywords :=
          if opts.jiraComponents ≠ [] then
            buildFinalList ((directMatchesOf inventory opts).map (fun m => m.tc.id))
              (finalCompMatches inventory opts)
          else []
        allCases := directMatchesOf inventory opts ++
          (if opts.jiraComponents ≠ [] then
            buildFinalList ((directMatchesOf inventory opts).map (fun m => m.tc.id))
              (finalCompMatches inventory opts)
           else [])
        groupedByModule :=
          if opts.jiraComponents ≠ [] then
            buildGrouped [] (finalCompMatches inventory opts)
          else [] } := by
  unfold getImpactedTestCases
  by_cases hc : opts.jiraComponents = [] <;> simp [hc]

/-- Every member of a case list has its id either already in `seen` or on a
kept entry of the id-deduplication. -/
theorem dedupCasesById_covers : ∀ (l : List TRCase) (seen : List Nat) (tc : TRCase),
    tc ∈ l → tc.id ∈ seen ∨ ∃ u ∈ dedupCasesById seen l, u.id = tc.id
  | [], _, _, h => absurd h (List.not_mem_nil _)
  | a :: rest, seen, tc, h => by
    unfold dedupCasesById
    by_cases ha : a.id ∈ seen
    · simp only [if_pos ha]
      rcases List.mem_cons.mp h with rfl | hmem
      · exact Or.inl ha
      · exact dedupCasesById_covers rest seen tc hmem
    · simp only [if_neg ha]
      rcases List.mem_cons.mp h with rfl | hmem
      · exact Or.inr ⟨tc, List.mem_cons_self _ _, rfl⟩
      · rcases dedupCasesById_covers rest (a.id :: seen) tc hmem with hs | ⟨u, hu, hid⟩
        · rcases List.mem_cons.mp hs with heq | hs'
          · exact Or.inr ⟨a, List.mem_cons_self _ _, heq.symm⟩
          · exact Or.inl hs'
        · exact Or.inr ⟨u, List.mem_cons_of_mem a hu, hid⟩

/-- The id-deduplication emits pairwise-distinct ids, none of them already
in `seen`. -/
theorem dedupCasesById_ids_nodup : ∀ (l : List TRCase) (seen : List Nat),
    ((dedupCasesById seen l).map (fun u => u.id)).Nodup ∧
    ∀ i ∈ (dedupCasesById seen l).map (fun u => u.id), i ∉ seen
  | [], seen => by simp [dedupCasesById]
  | a :: rest, seen => by
    unfold dedupCasesById
    by_cases ha : a.id ∈ seen
    · simpa [if_pos ha] using dedupCasesById_ids_nodup rest seen
    · obtain ⟨hnd, hni⟩ := dedupCasesById_ids_nodup rest (a.id :: seen)
      simp only [if_neg ha, List.map_cons, List.nodup_cons]
      refine ⟨⟨fun hmem => (hni _ hmem) (List.mem_cons_self _ _), hnd⟩, ?_⟩
      rintro i hi
      rcases List.mem_cons.mp hi with rfl | hi'
      · exact ha
      · exact fun hs => hni i hi' (List.mem_cons_of_mem _ hs)

/-- `buildFinalList` emits pairwise-distinct case ids, none of them already
in `seen`. -/
theorem buildFinalList_ids_nodup : ∀ (ms : List CompMatch) (seen : List Nat),
    ((buildFinalList seen ms).map (fun u => u.tc.id)).Nodup ∧
    ∀ i ∈ (buildFinalList seen ms).map (fun u => u.tc.id), i ∉ seen
  | [], seen => by simp [buildFinalList]
  | m :: rest, seen => by
    unfold buildFinalList
    by_cases hm : m.tc.id ∈ seen
    · simpa [if_pos hm] using buildFinalList_ids_nodup rest seen
    · obtain ⟨hnd, hni⟩ := buildFinalList_ids_nodup rest (m.tc.id :: seen)
      simp only [if_neg hm, List.map_cons, List.nodup_cons]
      have hid : (enrichCompMatch m).tc.id = m.tc.id := rfl
      rw [hid]
      refine ⟨⟨fun hmem => (hni _ hmem) (List.mem_cons_self _ _), hnd⟩, ?_⟩
      rintro i hi
      rcases List.mem_cons.mp hi with rfl | hi'
      · exact hm
      · exact fun hs => hni i hi' (List.mem_cons_of_mem _ hs)

/-- The ids of the direct-reference matches are pairwise distinct. -/
theorem directMatchesOf_ids_nodup (inventory : List TRCase) (opts : ImpactOptions) :
    ((directMatchesOf inventory opts).map (fun m => m.tc.id)).Nodup := by
  unfold directMatchesOf
  by_cases hj : opts.jiraId = ""
  · simp [hj]
  · rw [if_pos hj]
    rw [List.map_map]
    exact (dedupCasesById_ids_nodup _ []).1

/-- C2: with a ticket id supplied, every inventory case whose reference
field contains the id as a case-insensitive substring appears (by id) in
`directJiraMatch` with priority 1, regardless of its section path or title,
and `allCases` is the direct matches followed by the component-derived
matches, so direct matches head the combined list. -/
theorem direct_reference_always_matched (inventory : List TRCase)
    (opts : ImpactOptions) (tc : TRCase) (hid : opts.jiraId ≠ "")
    (htc : tc ∈ inventory)
    (href : jsIncludes (toLowerStr tc.refs) (toLowerStr opts.jiraId) = true) :
    (∃ m ∈ (getImpactedTestCases inventory opts).directJiraMatch,
       m.tc.id = tc.id ∧ m.priority = 1) ∧
    (getImpactedTestCases inventory opts).allCases =
      (getImpactedTestCases inventory opts).directJiraMatch ++
        (getImpactedTestCases inventory opts).componentWithKeywords := by
  rw [getImpactedTestCases_unfold]
  refine ⟨?_, rfl⟩
  unfold directMatchesOf
  rw [if_pos hid]
  have hfil : tc ∈ inventory.filter (fun tc =>
      jsIncludes (toLowerStr tc.refs) (toLowerStr opts.jiraId)) :=
    List.mem_filter.mpr ⟨htc, href⟩
  rcases dedupCasesById_covers _ [] tc hfil with hs | ⟨u, hu, huid⟩
  · cases hs
  · exact ⟨_, List.mem_map_of_mem _ hu, huid, rfl⟩

/-- Witness for C2 at a one-case inventory carrying the ticket id in its
reference field. -/
theorem direct_reference_always_matched_witness :
    (∃ m ∈ (getImpactedTestCases [⟨7, "Login regression", "PROJ-1, PROJ-2", "A › B"⟩]
        { jiraId := "proj-2" }).directJiraMatch,
       m.tc.id = (7 : Nat) ∧ m.priority = 1) ∧
    (getImpactedTestCases [⟨7, "Login regression", "PROJ-1, PROJ-2", "A › B"⟩]
        { jiraId := "proj-2" }).allCases =
      (getImpactedTestCases [⟨7, "Login regression", "PROJ-1, PROJ-2", "A › B"⟩]
        { jiraId := "proj-2" }).directJiraMatch ++
        (getImpactedTestCases [⟨7, "Login regression", "PROJ-1, PROJ-2", "A › B"⟩]
        { jiraId := "proj-2" }).componentWithKeywords :=
  direct_reference_always_matched _ _ ⟨7, "Login regression", "PROJ-1, PROJ-2", "A › B"⟩
    (by decide) (List.mem_singleton.mpr rfl) (by decide)

/-- C3: `allCases` never repeats a test-case id — the shared seen-id set
dedupes within and across the two stages — and it is exactly the
direct-reference matches (priority 1) followed by the component-derived
matches, so the first-found direct occurrence wins. -/
theorem allCases_ids_nodup (inventory : List TRCase) (opts : ImpactOptions) :
    ((getImpactedTestCases inventory opts).allCases.map (fun m => m.tc.id)).Nodup ∧
    (getImpactedTestCases inventory opts).allCases =
      (getImpactedTestCases inventory opts).directJiraMatch ++
        (getImpactedTestCases inventory opts).componentWithKeywords := by
  rw [getImpactedTestCases_unfold]
  refine ⟨?_, rfl⟩
  simp only [List.map_append, List.nodup_append]
  refine ⟨directMatchesOf_ids_nodup inventory opts, ?_, ?_⟩
  · by_cases hc : opts.jiraComponents ≠ []
    · rw [if_pos hc]
      exact (buildFinalList_ids_nodup _ _).1
    · rw [if_neg hc]
      exact List.nodup_nil
  · by_cases hc : opts.jiraComponents ≠ []
    · rw [if_pos hc]
      intro i hi hib
      exact (buildFinalList_ids_nodup _ _).2 i hib hi
    · rw [if_neg hc]
      intro i _ hib
      cases hib

/-- The threshold cascade only ever selects from the sorted list: each of
its four outcomes is a filter, a prefix, or the list itself. -/
theorem relevantTestsOf_sublist (sorted : List ScoredTest) :
    List.Sublist (relevantTestsOf sorted) sorted := by
  simp only [relevantTestsOf]
  repeat' split
  all_goals first
    | exact List.take_sublist _ _
    | exact List.filter_sublist _

/-- The sorted score list is non-increasing in `score`. -/
theorem sortedScoredTests_pairwise (ctx : ScoringContext)
    (regressionTests : List RegTestCase) :
    (sortedScoredTests ctx regressionTests).Pairwise
      (fun a b => b.score ≤ a.score) := by
  unfold sortedScoredTests
  have h := @List.sorted_mergeSort ScoredTest
    (fun a b : ScoredTest => decide (b.score ≤ a.score))
    (fun a b c hab hbc => by
      simp only [decide_eq_true_eq] at *
      exact le_trans hbc hab)
    (fun a b => by
      simp only [Bool.or_eq_true, decide_eq_true_eq]
      exact le_total b.score a.score)
    (regressionTests.filterMap (fun tc =>
      let score := scoreTestCase ctx tc
      if 0 < score then some ({ testCase := tc, score := score } : ScoredTest)
      else none))
  exact h.imp (fun hab => of_decide_eq_true hab)

/-- Every entry of the sorted score list has a strictly positive clamped
score, bounded by 100. -/
theorem mem_sortedScoredTests (ctx : ScoringContext)
    (regressionTests : List RegTestCase) (st : ScoredTest)
    (h : st ∈ sortedScoredTests ctx regressionTests) :
    0 < st.score ∧ st.score ≤ 100 := by
  unfold sortedScoredTests at h
  rw [List.mem_mergeSort] at h
  rcases List.mem_filterMap.mp h with ⟨tc, _, heq⟩
  simp only at heq
  by_cases hpos : 0 < scoreTestCase ctx tc
  · rw [if_pos hpos] at heq
    obtain rfl := (Option.some.injEq _ _).mp heq
    refine ⟨hpos, ?_⟩
    exact min_le_right _ _
  · rw [if_neg hpos] at heq
    cases heq

/-- Every returned ranked test carries the positive, 100-bounded score of a
sorted-list entry. -/
theorem mem_scoreRegression_bounds (matrix : List TraceEntry)
    (regressionTests : List RegTestCase) (changedFiles : List BBFile)
    (components keywords : List String) (prTitle prDescription : String)
    (t : RankedTest)
    (ht : t ∈ scoreRegressionTestsForRelevance matrix regressionTests changedFiles
      components keywords prTitle prDescription) :
    0 < t.relevanceScore ∧ t.relevanceScore ≤ 100 := by
  unfold scoreRegressionTestsForRelevance at ht
  rcases List.mem_map.mp ht with ⟨st, hst, rfl⟩
  have h1 : st ∈ relevantTestsOf (sortedScoredTests
      (scoringContextOf matrix changedFiles components keywords prTitle prDescription)
      regressionTests) :=
    (List.take_sublist _ _).subset hst
  have h2 := (relevantTestsOf_sublist _).subset h1
  exact mem_sortedScoredTests _ _ _ h2

/-- Concrete run of the ranking pipeline: one regression test titled
"Verify login works" against the keyword "login" scores 20 and is returned
(via the top-10 fallback, since 20 is below every threshold). -/
theorem pipeline_example_eval :
    scoreRegressionTestsForRelevance [] [⟨"Verify login works", "", "", "", 0, 0⟩]
      [] [] ["login"] "" "" =
    [⟨⟨"Verify login works", "", "", "", 0, 0⟩, 20⟩] := by
  have hscore : scoreTestCase (scoringContextOf [] [] [] ["login"] "" "")
      ⟨"Verify login works", "", "", "", 0, 0⟩ = 20 := by decide
  have hsorted : sortedScoredTests (scoringContextOf [] [] [] ["login"] "" "")
      [⟨"Verify login works", "", "", "", 0, 0⟩] =
      [⟨⟨"Verify login works", "", "", "", 0, 0⟩, 20⟩] := by
    simp [sortedScoredTests, hscore]
  unfold scoreRegressionTestsForRelevance
  simp only [hsorted]
  decide

/-- C1: each per-case score is exactly the clamp to [0, 100] of the
additive signal total, so every relevance score the Relevance Scorer
attaches to a returned test case lies in [0, 100]. -/
theorem relevance_score_clamped :
    (∀ (ctx : ScoringContext) (tc : RegTestCase),
      scoreTestCase ctx tc = min (max (rawRelevanceScore ctx tc) 0) 100 ∧
      0 ≤ scoreTestCase ctx tc ∧ scoreTestCase ctx tc ≤ 100) ∧
    (∀ (matrix : List TraceEntry) (regressionTests : List RegTestCase)
       (changedFiles : List BBFile) (components keywords : List String)
       (prTitle prDescription : String) (t : RankedTest),
      t ∈ scoreRegressionTestsForRelevance matrix regressionTests changedFiles
        components keywords prTitle prDescription →
      0 ≤ t.relevanceScore ∧ t.relevanceScore ≤ 100) := by
  constructor
  · intro ctx tc
    refine ⟨rfl, ?_, min_le_right _ _⟩
    exact le_min (le_max_right _ _) (by norm_num)
  · intro matrix regressionTests changedFiles components keywords prTitle prDescription t ht
    obtain ⟨hpos, hle⟩ := mem_scoreRegression_bounds matrix regressionTests changedFiles
      components keywords prTitle prDescription t ht
    exact ⟨le_of_lt hpos, hle⟩

/-- Witness for C1 at the concrete pipeline run of `pipeline_example_eval`. -/
theorem relevance_score_clamped_witness :
    0 ≤ (⟨⟨"Verify login works", "", "", "", 0, 0⟩, 20⟩ : RankedTest).relevanceScore ∧
    (⟨⟨"Verify login works", "", "", "", 0, 0⟩, 20⟩ : RankedTest).relevanceScore ≤ 100 :=
  relevance_score_clamped.2 [] [⟨"Verify login works", "", "", "", 0, 0⟩] [] [] ["login"]
    "" "" ⟨⟨"Verify login works", "", "", "", 0, 0⟩, 20⟩
    (by rw [pipeline_example_eval]; exact List.mem_singleton.mpr rfl)

/-- C10: unlike the Impact Selector's advisory cap, the regression-ranking
path truncates — every returned test case carries a strictly positive
clamped score, the returned list is sorted by score in non-increasing
order, and its length is at most `getMaxTestsForPRSize` of the number of
changed files, whose tiers are 10 (≤ 2 files), 15 (≤ 5), 20 (≤ 10),
40 (≤ 20) and 60 otherwise. -/
theorem regression_ranking_truncated :
    (∀ (matrix : List TraceEntry) (regressionTests : List RegTestCase)
       (changedFiles : List BBFile) (components keywords : List String)
       (prTitle prDescription : String),
      (∀ t ∈ scoreRegressionTestsForRelevance matrix regressionTests changedFiles
          components keywords prTitle prDescription, 0 < t.relevanceScore) ∧
      (scoreRegressionTestsForRelevance matrix regressionTests changedFiles
          components keywords prTitle prDescription).Pairwise
        (fun a b => b.relevanceScore ≤ a.relevanceScore) ∧
      (scoreRegressionTestsForRelevance matrix regressionTests changedFiles
          components keywords prTitle prDescription).length ≤
        getMaxTestsForPRSize changedFiles.length) ∧
    (∀ n : Nat, getMaxTestsForPRSize n =
      if n ≤ 2 then 10 else if n ≤ 5 then 15 else if n ≤ 10 then 20
      else if n ≤ 20 then 40 else 60) := by
  constructor
  · intro matrix regressionTests changedFiles components keywords prTitle prDescription
    refine ⟨?_, ?_, ?_⟩
    · intro t ht
      exact (mem_scoreRegression_bounds matrix regressionTests changedFiles
        components keywords prTitle prDescription t ht).1
    · unfold scoreRegressionTestsForRelevance
      rw [List.pairwise_map]
      have hs : List.Pairwise (fun a b : ScoredTest => b.score ≤ a.score)
          (List.take (getMaxTestsForPRSize changedFiles.length)
            (relevantTestsOf (sortedScoredTests
              (scoringContextOf matrix changedFiles components keywords prTitle
                prDescription) regressionTests))) :=
        List.Pairwise.sublist
          ((List.take_sublist _ _).trans (relevantTestsOf_sublist _))
          (sortedScoredTests_pairwise _ _)
      exact hs.imp (fun h => h)
    · unfold scoreRegressionTestsForRelevance
      rw [List.length_map]
      exact List.length_take_le _ _
  · intro n
    rfl

/-- Witness for C10 at the concrete pipeline run of
`pipeline_example_eval`. -/
theorem regression_ranking_truncated_witness :
    0 < (⟨⟨"Verify login works", "", "", "", 0, 0⟩, 20⟩ : RankedTest).relevanceScore :=
  (regression_ranking_truncated.1 [] [⟨"Verify login works", "", "", "", 0, 0⟩] [] []
      ["login"] "" "").1
    ⟨⟨"Verify login works", "", "", "", 0, 0⟩, 20⟩
    (by rw [pipeline_example_eval]; exact List.mem_singleton.mpr rfl)

/-- A keyword character (`[a-z0-9]`) is never a split delimiter of the
keyword extractor. -/
theorem kwChar_not_delim (c : Char) (h : isKeywordChar c = true) :
    isKwDelim c = false := by
  simp only [isKeywordChar, Bool.or_eq_true, Bool.and_eq_true,
    decide_eq_true_eq] at h
  simp only [isKwDelim, isJsSpace, Bool.or_eq_false_iff, decide_eq_false_iff_not]
  omega

/-- Lowercasing fixes keyword characters. -/
theorem toLower_fix_kwChar (c : Char) (h : isKeywordChar c = true) :
    Char.toLower c = c := by
  simp only [isKeywordChar, Bool.or_eq_true, Bool.and_eq_true,
    decide_eq_true_eq] at h
  simp only [Char.toLower]
  rw [if_neg (by omega)]

/-- An all-non-delimiter block splits as a single piece. -/
theorem splitRunGo_all_keep (d : Char → Bool) :
    ∀ (w acc : List Char), (∀ c ∈ w, d c = false) →
      splitRunGo d false acc w = [acc.reverse ++ w]
  | [], acc, _ => by simp [splitRunGo]
  | c :: w', acc, h => by
    have hc : d c = false := h c (List.mem_cons_self _ _)
    have ih := splitRunGo_all_keep d w' (c :: acc)
      (fun c' hc' => h c' (List.mem_cons_of_mem _ hc'))
    simp only [splitRunGo, hc, Bool.false_eq_true, if_false, ih,
      List.reverse_cons, List.append_assoc, List.cons_append, List.nil_append]

/-- An all-non-delimiter block followed by a space cuts exactly once. -/
theorem splitRunGo_block_space (d : Char → Bool) (hsp : d ' ' = true) :
    ∀ (w acc rest : List Char), (∀ c ∈ w, d c = false) →
      splitRunGo d false acc (w ++ ' ' :: rest) =
        (acc.reverse ++ w) :: splitRunGo d true [] rest
  | [], acc, rest, _ => by simp [splitRunGo, hsp]
  | c :: w', acc, rest, h => by
    have hc : d c = false := h c (List.mem_cons_self _ _)
    have ih := splitRunGo_block_space d hsp w' (c :: acc) rest
      (fun c' hc' => h c' (List.mem_cons_of_mem _ hc'))
    calc splitRunGo d false acc ((c :: w') ++ ' ' :: rest)
        = splitRunGo d false (c :: acc) (w' ++ ' ' :: rest) := by
          simp [splitRunGo, hc]
      _ = ((c :: acc).reverse ++ w') :: splitRunGo d true [] rest := ih
      _ = (acc.reverse ++ c :: w') :: splitRunGo d true [] rest := by
          simp [List.reverse_cons, List.append_assoc]

/-- After a cut, a leading non-delimiter char resets the scan to the
outside-run state. -/
theorem splitRunGo_true_of_keep (d : Char → Bool) (c : Char) (rest : List Char)
    (hc : d c = false) :
    splitRunGo d true [] (c :: rest) = splitRunGo d false [] (c :: rest) := by
  simp [splitRunGo, hc]

/-- `joinChars` of a cons, in `++` form. -/
theorem joinChars_cons (w : List Char) (ws : List (List Char)) :
    joinChars (w :: ws) =
      w ++ (if ws.isEmpty then [] else ' ' :: joinChars ws) := by
  cases ws with
  | nil => simp [joinChars]
  | cons w' ws' => simp [joinChars]

/-- Every character of a space-join comes from one of the words or is the
space itself. -/
theorem mem_joinChars (c : Char) :
    ∀ (ws : List (List Char)), c ∈ joinChars ws →
      (∃ w ∈ ws, c ∈ w) ∨ c = ' '
  | [], h => by cases h
  | [w], h => by
    simp only [joinChars] at h
    exact Or.inl ⟨w, List.mem_cons_self _ _, h⟩
  | w :: w' :: ws', h => by
    simp only [joinChars, List.mem_append, List.mem_cons] at h
    rcases h with hw | rfl | hrest
    · exact Or.inl ⟨w, List.mem_cons_self _ _, hw⟩
    · exact Or.inr rfl
    · rcases mem_joinChars c (w' :: ws') hrest with ⟨u, hu, hcu⟩ | hsp
      · exact Or.inl ⟨u, List.mem_cons_of_mem _ hu, hcu⟩
      · exact Or.inr hsp

/-- Splitting a space-join of non-empty all-non-delimiter words recovers the
words. -/
theorem splitRunGo_joinChars (d : Char → Bool) (hsp : d ' ' = true) :
    ∀ (ws : List (List Char)), ws ≠ [] →
      (∀ w ∈ ws, w ≠ [] ∧ ∀ c ∈ w, d c = false) →
      splitRunGo d false [] (joinChars ws) = ws
  | [], h, _ => absurd rfl h
  | [w], _, hw => by
    have h := (hw w (List.mem_cons_self _ _)).2
    simp only [joinChars]
    rw [splitRunGo_all_keep d w [] h]
    simp
  | w :: w' :: ws', _, hw => by
    have hthis := hw w (List.mem_cons_self _ _)
    have hw' := hw w' (List.mem_cons_of_mem _ (List.mem_cons_self _ _))
    have hrec := splitRunGo_joinChars d hsp (w' :: ws') (by simp)
      (fun u hu => hw u (List.mem_cons_of_mem _ hu))
    simp only [joinChars]
    rw [splitRunGo_block_space d hsp w [] (joinChars (w' :: ws')) hthis.2]
    simp only [List.reverse_nil, List.nil_append]
    congr 1
    obtain ⟨c', t', heq⟩ : ∃ c' t', w' = c' :: t' := by
      cases w' with
      | nil => exact absurd rfl hw'.1
      | cons a b => exact ⟨a, b, rfl⟩
    have hc' : d c' = false := hw'.2 c' (heq.symm ▸ List.mem_cons_self c' t')
    have ht : joinChars (w' :: ws') =
        c' :: (t' ++ (if ws'.isEmpty then [] else ' ' :: joinChars ws')) := by
      rw [joinChars_cons, heq]
      rfl
    rw [ht, splitRunGo_true_of_keep d c' _ hc', ← ht]
    exact hrec

/-- Elements of the string dedup come from the input. -/
theorem mem_jsDedupGo : ∀ (l seen : List String) (a : String),
    a ∈ jsDedupGo seen l → a ∈ l
  | [], _, _, h => by cases h
  | x :: xs, seen, a, h => by
    unfold jsDedupGo at h
    by_cases hx : x ∈ seen
    · rw [if_pos hx] at h
      exact List.mem_cons_of_mem _ (mem_jsDedupGo xs seen a h)
    · rw [if_neg hx] at h
      rcases List.mem_cons.mp h with rfl | h'
      · exact List.mem_cons_self _ _
      · exact List.mem_cons_of_mem _ (mem_jsDedupGo xs (x :: seen) a h')

/-- The string dedup emits pairwise-distinct strings, none already seen. -/
theorem jsDedupGo_nodup : ∀ (l seen : List String),
    (jsDedupGo seen l).Nodup ∧ ∀ a ∈ jsDedupGo seen l, a ∉ seen
  | [], seen => by simp [jsDedupGo]
  | x :: xs, seen => by
    unfold jsDedupGo
    by_cases hx : x ∈ seen
    · simpa [if_pos hx] using jsDedupGo_nodup xs seen
    · obtain ⟨hnd, hni⟩ := jsDedupGo_nodup xs (x :: seen)
      simp only [if_neg hx, List.nodup_cons]
      refine ⟨⟨fun hmem => (hni _ hmem) (List.mem_cons_self _ _), hnd⟩, ?_⟩
      rintro a ha
      rcases List.mem_cons.mp ha with rfl | ha'
      · exact hx
      · exact fun hs => hni a ha' (List.mem_cons_of_mem _ hs)

/-- Dedup of a duplicate-free list with nothing pre-seen is the identity. -/
theorem jsDedupGo_eq_self : ∀ (l seen : List String), l.Nodup →
    (∀ a ∈ l, a ∉ seen) → jsDedupGo seen l = l
  | [], _, _, _ => rfl
  | x :: xs, seen, hnd, hns => by
    have hx : x ∉ seen := hns x (List.mem_cons_self _ _)
    unfold jsDedupGo
    rw [if_neg hx]
    congr 1
    refine jsDedupGo_eq_self xs (x :: seen) (List.nodup_cons.mp hnd).2 ?_
    intro a ha hmem
    rcases List.mem_cons.mp hmem with rfl | h'
    · exact (List.nodup_cons.mp hnd).1 ha
    · exact hns a (List.mem_cons_of_mem _ ha) h'

/-- Every extracted keyword passes the significant-word filter. -/
theorem extract_mem_sig (x w : String)
    (h : w ∈ extractSignificantKeywords x) : isSignificantWord w = true := by
  unfold extractSignificantKeywords jsDedup at h
  by_cases hx : x = ""
  · rw [if_pos hx] at h
    cases h
  · rw [if_neg hx] at h
    exact (List.mem_filter.mp (mem_jsDedupGo _ _ _ h)).2

/-- The extracted keyword list never repeats a keyword. -/
theorem extract_nodup (x : String) : (extractSignificantKeywords x).Nodup := by
  unfold extractSignificantKeywords jsDedup
  split
  · exact List.nodup_nil
  · exact (jsDedupGo_nodup _ _).1

/-- A word passing the significant-word filter is non-empty and made of
keyword characters only. -/
theorem sig_word_fields (w : String) (h : isSignificantWord w = true) :
    w ≠ "" ∧ ∀ c ∈ w.data, isKeywordChar c = true := by
  unfold isSignificantWord at h
  rw [Bool.and_eq_true, Bool.and_eq_true, Bool.and_eq_true] at h
  obtain ⟨⟨hlen, _, hall⟩, _⟩ := h
  refine ⟨?_, List.all_eq_true.mp hall⟩
  intro hEq
  rw [hEq] at hlen
  exact absurd (of_decide_eq_true hlen) (by decide)

/-- Lowercasing fixes a space-join of keyword-character words. -/
theorem toLower_join_eq (ws : List String)
    (h : ∀ w ∈ ws, ∀ c ∈ w.data, isKeywordChar c = true) :
    toLowerStr (jsJoinSpace ws) = jsJoinSpace ws := by
  unfold toLowerStr jsJoinSpace
  congr 1
  show List.map Char.toLower (joinChars (ws.map String.data)) =
    joinChars (ws.map String.data)
  have hfix : ∀ c ∈ joinChars (ws.map String.data), Char.toLower c = c := by
    intro c hc
    rcases mem_joinChars c _ hc with ⟨l, hl, hcl⟩ | rfl
    · rcases List.mem_map.mp hl with ⟨w, hw, rfl⟩
      exact toLower_fix_kwChar c (h w hw c hcl)
    · decide
  rw [List.map_congr_left hfix]
  simp

/-- Splitting a space-join of significant words recovers the words. -/
theorem jsSplitRun_join_eq (ws : List String) (hne : ws ≠ [])
    (h : ∀ w ∈ ws, w ≠ "" ∧ ∀ c ∈ w.data, isKeywordChar c = true) :
    jsSplitRun (jsJoinSpace ws) isKwDelim = ws := by
  unfold jsSplitRun jsJoinSpace splitRunList
  show ((splitRunGo isKwDelim false [] (joinChars (ws.map String.data))).map
    (fun cs => (⟨cs⟩ : String))) = ws
  have hcond : ∀ u ∈ ws.map String.data, u ≠ [] ∧ ∀ c ∈ u, isKwDelim c = false := by
    intro u hu
    rcases List.mem_map.mp hu with ⟨w, hw, rfl⟩
    obtain ⟨hwne, hwkw⟩ := h w hw
    refine ⟨?_, fun c hc => kwChar_not_delim c (hwkw c hc)⟩
    intro h0
    apply hwne
    rw [show w = (⟨w.data⟩ : String) from rfl, h0]
  rw [splitRunGo_joinChars isKwDelim (by decide) (ws.map String.data)
    (by simpa using hne) hcond]
  rw [List.map_map]
  have hid : ws.map ((fun cs => (⟨cs⟩ : String)) ∘ String.data) = ws.map id :=
    List.map_congr_left (fun a _ => rfl)
  rw [hid, List.map_id]

/-- Extraction of a space-join of distinct significant words returns
exactly those words. -/
theorem extract_join_of_sig (ws : List String)
    (hsig : ∀ w ∈ ws, isSignificantWord w = true) (hnd : ws.Nodup) :
    extractSignificantKeywords (jsJoinSpace ws) = ws := by
  cases ws with
  | nil =>
    show extractSignificantKeywords (jsJoinSpace []) = []
    decide
  | cons w ws' =>
    have hprops : ∀ u ∈ w :: ws', u ≠ "" ∧ ∀ c ∈ u.data, isKeywordChar c = true :=
      fun u hu => sig_word_fields u (hsig u hu)
    have hwne : w.data ≠ [] := by
      intro h0
      refine (hprops w (List.mem_cons_self _ _)).1 ?_
      rw [show w = (⟨w.data⟩ : String) from rfl, h0]
    have hne : jsJoinSpace (w :: ws') ≠ "" := by
      intro hEq
      have hd : joinChars ((w :: ws').map String.data) = [] := congrArg String.data hEq
      rw [List.map_cons, joinChars_cons] at hd
      exact hwne (List.append_eq_nil.mp hd).1
    unfold extractSignificantKeywords
    rw [if_neg hne]
    rw [toLower_join_eq _ (fun u hu => (hprops u hu).2)]
    rw [jsSplitRun_join_eq _ (by simp) hprops]
    rw [List.filter_eq_self.mpr hsig]
    unfold jsDedup
    exact jsDedupGo_eq_self _ [] hnd (fun a _ h => by cases h)

/-- C9: keyword extraction is idempotent on its own space-joined output —
re-extracting from the joined keywords of a first extraction yields exactly
the first extraction's keyword list. -/
theorem extractSignificantKeywords_idempotent (x : String) :
    extractSignificantKeywords (jsJoinSpace (extractSignificantKeywords x)) =
      extractSignificantKeywords x :=
  extract_join_of_sig _ (fun w hw => extract_mem_sig x w hw) (extract_nodup x)
